import Mathlib

/-!
Friend-circle backend: user controller and auth middleware.

A shallow embedding of `src/controllers/userController.js` and
`src/middleware/auth.js`.

The user store is a list of user records, each with the revision counter `__v`
the store keeps for it.  `User.findById` returns the first record carrying the
identifier.  A loaded document remembers, for each of its two arrays, whether
it was left alone, only pushed to, or assigned a new value; `doc.save()` sends
exactly these changes: a push is appended to the array as stored, an assignment
replaces it and is accepted only when the stored revision is still the loaded
one, and a document without changes writes nothing.  A save that is refused
throws, and the handler answers from its `catch` branch.  Failures of the
external store beyond that are outside this model.

Identifiers are opaque keys.  `req.user.id` is the canonical string of the
identifier of the authenticated user.  `req.body.friendId` is text supplied by
the client: lookups cast it to an identifier, comparisons with
`id.toString()` and `includes` compare the text itself, so a spelling other
than the canonical one finds the record and matches no array element.  A value
that may be `undefined` (`req.user.id`, `req.body.friendId`, `decoded.userId`,
the `authorization` header) is an `Option`.
-/

namespace FriendCircle

/-- Identifier of a user record (`_id`). -/
abbrev Id := Nat

/-- Modelled from the spec: the user record of `models/User`, which is not
among the sources; the fields are those of the data model, and `version` is
the revision counter `__v` of the stored record. -/
structure User where
  id : Id
  username : String
  password : Option String
  mood : String
  interests : List String
  friends : List Id
  friendRequests : List Id
  version : Nat
deriving DecidableEq, Repr

/-- The user collection. -/
abbrev Store := List User

/-- The JSON answer of a handler: status code and `message` field. -/
structure Response where
  status : Nat
  message : String
deriving DecidableEq, Repr

/-- The value of `req.body.friendId` when present: text that casts to the
identifier `id`, in the canonical spelling `id.toString()` or in another one
(for instance upper-case hexadecimal), or a value that casts to no identifier. -/
inductive FriendId where
  | text (id : Id) (canonical : Bool)
  | malformed
deriving DecidableEq, Repr

/-- The test `id.toString() !== friendId` for an array element `x`. -/
def FriendId.differs (f : FriendId) (x : Id) : Bool :=
  match f with
  | .text id canonical => !(canonical && x == id)
  | .malformed => true

/-- The test `array.includes(friendId)` on an array of identifiers: an element
whose string equals the text. -/
def includes (l : List Id) (f : FriendId) : Bool :=
  l.any (fun x => !f.differs x)

/-- Modelled from the spec: the find-by-id of the store, `User.findById(id)`;
`findById(undefined)` yields `null`. -/
def findById (s : Store) (i : Option Id) : Option User :=
  match i with
  | none => none
  | some i => s.find? (fun u => u.id == i)

/-- What a loaded document recorded for one array since it was loaded:
nothing, the elements pushed, or the array assigned. -/
inductive Change where
  | clean
  | pushed (xs : List Id)
  | assigned (l : List Id)
deriving DecidableEq, Repr

/-- The array after the change, starting from `base`. -/
def Change.apply (c : Change) (base : List Id) : List Id :=
  match c with
  | .clean => base
  | .pushed xs => base ++ xs
  | .assigned l => l

/-- The change after `array.push(x)`. -/
def Change.push (c : Change) (x : Id) : Change :=
  match c with
  | .clean => .pushed [x]
  | .pushed xs => .pushed (xs ++ [x])
  | .assigned l => .assigned (l ++ [x])

/-- Whether the change is an assignment of the whole array. -/
def Change.isAssigned (c : Change) : Bool :=
  match c with
  | .assigned _ => true
  | _ => false

/-- A document in memory: the record as loaded and the changes made since. -/
structure Doc where
  loaded : User
  friends : Change
  friendRequests : Change
deriving DecidableEq, Repr

/-- The document a lookup hands out. -/
def load (u : User) : Doc :=
  { loaded := u, friends := .clean, friendRequests := .clean }

/-- The expression `doc.friends`. -/
def Doc.friendsValue (d : Doc) : List Id :=
  d.friends.apply d.loaded.friends

/-- The expression `doc.friendRequests`. -/
def Doc.friendRequestsValue (d : Doc) : List Id :=
  d.friendRequests.apply d.loaded.friendRequests

/-- The statement `doc.friends.push(x)`. -/
def Doc.pushFriends (d : Doc) (x : Id) : Doc :=
  { d with friends := d.friends.push x }

/-- The statement `doc.friendRequests.push(x)`. -/
def Doc.pushFriendRequests (d : Doc) (x : Id) : Doc :=
  { d with friendRequests := d.friendRequests.push x }

/-- The statement `doc.friends = l`; assigning the value the array already has
leaves the document unchanged. -/
def Doc.setFriends (d : Doc) (l : List Id) : Doc :=
  if l = d.friendsValue then d else { d with friends := .assigned l }

/-- The statement `doc.friendRequests = l`. -/
def Doc.setFriendRequests (d : Doc) (l : List Id) : Doc :=
  if l = d.friendRequestsValue then d else { d with friendRequests := .assigned l }

/-- The store with the record of `u.id` replaced by `u`. -/
def put (s : Store) (u : User) : Store :=
  s.map (fun r => if r.id = u.id then u else r)

/-- Modelled from the spec: the save of the store, `doc.save()`, which persists
a record by sending the changes of the document.  A document without changes
writes nothing.  A pushed element is appended to the array as it is stored; an
assigned array replaces the stored one and is accepted only while the stored
revision is the one that was loaded.  Every write moves the revision by one.
The result is `none` when the save throws. -/
def save (s : Store) (d : Doc) : Option Store :=
  if d.friends = .clean ∧ d.friendRequests = .clean then some s
  else
    match findById s (some d.loaded.id) with
    | none => none
    | some stored =>
      if (d.friends.isAssigned = true ∨ d.friendRequests.isAssigned = true) ∧
          stored.version ≠ d.loaded.version then none
      else
        some (put s { stored with
          friends := d.friends.apply stored.friends
          friendRequests := d.friendRequests.apply stored.friendRequests
          version := stored.version + 1 })

/-- Handler `exports.sendFriendRequest`. -/
def sendFriendRequest (s : Store) (userId : Option Id) (friendId : Option FriendId) :
    Store × Response :=
  match userId with
  | none => (s, ⟨401, "Authentication failed"⟩)
  | some uid =>
    match friendId with
    | none => (s, ⟨400, "Friend ID is required"⟩)
    | some fid =>
      match findById s (some uid) with
      | none => (s, ⟨404, "User not found"⟩)
      | some _user =>
        match fid with
        | .malformed => (s, ⟨500, "Error sending friend request"⟩)
        | .text target _ =>
          match findById s (some target) with
          | none => (s, ⟨404, "Friend not found"⟩)
          | some friend =>
            let friend := load friend
            if uid ∈ friend.friendRequestsValue then
              (s, ⟨400, "Friend request already sent"⟩)
            else
              let friend := friend.pushFriendRequests uid
              match save s friend with
              | none => (s, ⟨500, "Error sending friend request"⟩)
              | some s1 => (s1, ⟨200, "Friend request sent successfully"⟩)

/-- Handler `exports.acceptFriendRequest`. -/
def acceptFriendRequest (s : Store) (userId : Option Id) (friendId : Option FriendId) :
    Store × Response :=
  match friendId with
  | some .malformed => (s, ⟨500, "Error accepting friend request"⟩)
  | none => (s, ⟨404, "User not found"⟩)
  | some (.text target canonical) =>
    match findById s (some target) with
    | none => (s, ⟨404, "User not found"⟩)
    | some friend =>
      match findById s userId, userId with
      | some user, some uid =>
        let user := load user
        let friend := load friend
        if includes user.friendRequestsValue (.text target canonical) = false then
          (s, ⟨400, "No friend request from this user"⟩)
        else
          let user := user.setFriendRequests
            (user.friendRequestsValue.filter (fun id => (FriendId.text target canonical).differs id))
          let user := user.pushFriends target
          let friend := friend.pushFriends uid
          match save s user with
          | none => (s, ⟨500, "Error accepting friend request"⟩)
          | some s1 =>
            match save s1 friend with
            | none => (s1, ⟨500, "Error accepting friend request"⟩)
            | some s2 => (s2, ⟨200, "Friend request accepted"⟩)
      | _, _ => (s, ⟨500, "Error accepting friend request"⟩)

/-- Handler `exports.rejectFriendRequest`. -/
def rejectFriendRequest (s : Store) (userId : Option Id) (friendId : Option FriendId) :
    Store × Response :=
  match findById s userId with
  | none => (s, ⟨500, "Error rejecting friend request"⟩)
  | some user =>
    let user := load user
    match friendId with
    | none => (s, ⟨400, "No friend request from this user"⟩)
    | some fid =>
      if includes user.friendRequestsValue fid = false then
        (s, ⟨400, "No friend request from this user"⟩)
      else
        let user := user.setFriendRequests
          (user.friendRequestsValue.filter (fun id => fid.differs id))
        match save s user with
        | none => (s, ⟨500, "Error rejecting friend request"⟩)
        | some s1 => (s1, ⟨200, "Friend request rejected"⟩)

/-- Handler `exports.unfriend`. -/
def unfriend (s : Store) (userId : Option Id) (friendId : Option FriendId) :
    Store × Response :=
  match friendId with
  | some .malformed => (s, ⟨500, "Error removing friend"⟩)
  | none => (s, ⟨404, "User not found"⟩)
  | some (.text target canonical) =>
    match findById s (some target) with
    | none => (s, ⟨404, "User not found"⟩)
    | some friend =>
      match findById s userId, userId with
      | some user, some uid =>
        let user := load user
        let friend := load friend
        let user := user.setFriends
          (user.friendsValue.filter (fun id => (FriendId.text target canonical).differs id))
        let friend := friend.setFriends (friend.friendsValue.filter (fun id => id != uid))
        match save s user with
        | none => (s, ⟨500, "Error removing friend"⟩)
        | some s1 =>
          match save s1 friend with
          | none => (s1, ⟨500, "Error removing friend"⟩)
          | some s2 => (s2, ⟨200, "Friend removed successfully"⟩)
      | _, _ => (s, ⟨500, "Error removing friend"⟩)

/-- One element of the answer of `getRecommendations`: the `$project` stage
keeps `_id`, `username` and the computed `mutualFriendsCount`. -/
structure Recommendation where
  id : Id
  username : String
  mutualFriendsCount : Nat
deriving DecidableEq, Repr

/-- Mongoose `populate('friends')`: every identifier of `user.friends` is
replaced by the record it refers to; identifiers without a record drop out. -/
def populateFriends (s : Store) (u : User) : List User :=
  u.friends.filterMap (fun i => findById s (some i))

/-- The `$lookup` and `$project` stages for one document `d`: join `d.friends`
against the collection, then take the size of the set intersection of the
joined identifiers with `friendIds`. -/
def mutualFriendsCount (s : Store) (friendIds : List Id) (d : User) : Nat :=
  let mutualFriends := s.filter (fun f => decide (f.id ∈ d.friends))
  ((mutualFriends.map (fun f => f.id)).filter (fun i => decide (i ∈ friendIds))).dedup.length

/-- The `$sort: { mutualFriendsCount: -1 }` order. -/
def byCountDesc (a b : Recommendation) : Prop :=
  b.mutualFriendsCount ≤ a.mutualFriendsCount

instance : DecidableRel byCountDesc :=
  fun a b => inferInstanceAs (Decidable (b.mutualFriendsCount ≤ a.mutualFriendsCount))

/-- The aggregation pipeline `User.aggregate([$match, $lookup, $project, $sort,
$limit])`.  The store leaves the order among equal counts open; the model sorts
stably. -/
def aggregate (s : Store) (friendIds : List Id) (uid : Id) : List Recommendation :=
  let matched := s.filter (fun d => decide (d.id ∉ friendIds ++ [uid]))
  let projected := matched.map
    (fun d => (⟨d.id, d.username, mutualFriendsCount s friendIds d⟩ : Recommendation))
  let sorted := projected.insertionSort byCountDesc
  sorted.take 5

/-- Handler `exports.getRecommendations`: an error answer or the JSON list. -/
def getRecommendations (s : Store) (userId : Option Id) :
    Except Response (List Recommendation) :=
  match findById s userId with
  | none => .error ⟨404, "User not found"⟩
  | some user =>
    let friendIds := (populateFriends s user).map (fun friend => friend.id)
    .ok (aggregate s friendIds user.id)

/-- The payload of a verified token; only `decoded.userId` is read. -/
structure Decoded where
  userId : Option Id
deriving DecidableEq, Repr

/-- What the middleware does with a request: answer it, or call `next()` with
`req.user` set. -/
inductive AuthOutcome where
  | respond (r : Response)
  | next (user : User)
deriving DecidableEq, Repr

/-- The expression `req.headers.authorization &&
req.headers.authorization.split(' ')[1]`, with every falsy value (`undefined`
or the empty string) read as `none`. -/
def bearerToken (authorization : Option String) : Option String :=
  match authorization with
  | none => none
  | some h =>
    match (h.toList.splitOn ' ')[1]? with
    | none => none
    | some t => if t = [] then none else some (String.mk t)

/-- The middleware of `auth.js`.  `verify` is `jwt.verify`, which yields the
decoded payload or throws (`none`); `secret` is `process.env.JWT_SECRET`. -/
def auth (verify : String → String → Option Decoded) (secret : String) (s : Store)
    (authorization : Option String) : Store × AuthOutcome :=
  match bearerToken authorization with
  | none => (s, .respond ⟨401, "No token, authorization denied"⟩)
  | some token =>
    match verify token secret with
    | none => (s, .respond ⟨401, "Authentication failed"⟩)
    | some decoded =>
      match findById s decoded.userId with
      | none => (s, .respond ⟨404, "User not found"⟩)
      | some user => (s, .next { user with password := none })

/-- One call of a friendship handler. -/
inductive Op where
  | send (userId : Option Id) (friendId : Option FriendId)
  | accept (userId : Option Id) (friendId : Option FriendId)
  | reject (userId : Option Id) (friendId : Option FriendId)
  | unfriend (userId : Option Id) (friendId : Option FriendId)
deriving DecidableEq, Repr

/-- The store after one call. -/
def step (s : Store) : Op → Store
  | .send u f => (sendFriendRequest s u f).1
  | .accept u f => (acceptFriendRequest s u f).1
  | .reject u f => (rejectFriendRequest s u f).1
  | .unfriend u f => (unfriend s u f).1

/-- The store after a sequence of calls. -/
def run (s : Store) (ops : List Op) : Store :=
  ops.foldl step s

/-! ## Properties of a store -/

/-- Friendship symmetry: for all stored users `x` and `y`, `x` is in
`y.friends` exactly when `y` is in `x.friends`. -/
def Symmetric (s : Store) : Prop :=
  ∀ x ∈ s, ∀ y ∈ s, (x.id ∈ y.friends ↔ y.id ∈ x.friends)

instance (s : Store) : Decidable (Symmetric s) := by
  unfold Symmetric; infer_instance

/-- No user has an identifier twice in `friendRequests`. -/
def RequestsNoDuplicates (s : Store) : Prop :=
  ∀ u ∈ s, u.friendRequests.Nodup

instance (s : Store) : Decidable (RequestsNoDuplicates s) := by
  unfold RequestsNoDuplicates; infer_instance

/-- No user has an identifier twice in `friends` or twice in `friendRequests`. -/
def NoDuplicates (s : Store) : Prop :=
  ∀ u ∈ s, u.friends.Nodup ∧ u.friendRequests.Nodup

instance (s : Store) : Decidable (NoDuplicates s) := by
  unfold NoDuplicates; infer_instance

/-- Every identifier in a `friends` list refers to a stored user. -/
def FriendsResolve (s : Store) : Prop :=
  ∀ u ∈ s, ∀ i ∈ u.friends, (findById s (some i)).isSome = true

instance (s : Store) : Decidable (FriendsResolve s) := by
  unfold FriendsResolve; infer_instance

/-- The number of distinct identifiers that occur both in `c.friends` and in
`u.friends`. -/
def distinctCommonFriends (c u : User) : Nat :=
  (c.friends.toFinset ∩ u.friends.toFinset).card

/-- The ranking the specification asks for, before sorting: every stored user
other than `u` and the friends of `u`, with its username and the number of
distinct friends it has in common with `u`. -/
def specCandidates (s : Store) (u : User) : List Recommendation :=
  (s.filter (fun c => decide (c.id ≠ u.id ∧ c.id ∉ u.friends))).map
    (fun c => (⟨c.id, c.username, distinctCommonFriends c u⟩ : Recommendation))

/-- A user record with the given identifier, friends and pending requests, at
revision 0. -/
def sampleUser (i : Id) (friends friendRequests : List Id) : User :=
  { id := i, username := "user", password := some "hash", mood := "", interests := [],
    friends := friends, friendRequests := friendRequests, version := 0 }

/-- The unfriend calls whose `friendId` is text in a spelling other than the
canonical one. -/
def unfriendsByOtherSpelling : Op → Bool
  | .unfriend _ (some (.text _ false)) => true
  | _ => false

/-- An `accept` call is fresh when it is between two distinct users neither of
whom has the other in `friends` yet; every other call is fresh.  A user who
accepts a request of their own is left out: the handler then loads the same
record twice and saves both copies, and both pushes reach the stored array. -/
def fresh (s : Store) : Op → Bool
  | .accept userId (some (.text target _)) =>
    match findById s userId, findById s (some target) with
    | some user, some friend =>
      decide (user.id ≠ friend.id ∧ friend.id ∉ user.friends ∧ user.id ∉ friend.friends)
    | _, _ => true
  | _ => true

/-- Every call of the sequence is fresh in the store it runs on. -/
def freshRun : Store → List Op → Bool
  | _, [] => true
  | s, op :: ops => fresh s op && freshRun (step s op) ops

instance : IsTotal Recommendation byCountDesc :=
  ⟨fun a b => Nat.le_total b.mutualFriendsCount a.mutualFriendsCount⟩

instance : IsTrans Recommendation byCountDesc :=
  ⟨fun _ _ _ hab hbc => Nat.le_trans hbc hab⟩

/-- The valid bearer credential of the specification: the header reads
`Bearer <token>` and the token passes verification against the secret. -/
def validBearerCredential (verify : String → String → Option Decoded) (secret : String)
    (authorization : Option String) : Prop :=
  ∃ token, authorization = some ("Bearer " ++ token) ∧ (verify token secret).isSome = true

/-- A verifier that accepts the token `good` under the secret `key`, for the
subject 1, and nothing else. -/
def sampleVerify (token secret : String) : Option Decoded :=
  if token = "good" ∧ secret = "key" then some ⟨some 1⟩ else none

/-! ## Store lemmas -/

theorem findById_none (s : Store) : findById s none = none := rfl

theorem findById_id {s : Store} {i : Option Id} {u : User} (h : findById s i = some u) :
    i = some u.id := by
  cases i with
  | none => simp [findById] at h
  | some j =>
    have := List.find?_some h
    simp at this
    simp [this]

theorem findById_mem {s : Store} {i : Option Id} {u : User} (h : findById s i = some u) :
    u ∈ s := by
  cases i with
  | none => simp [findById] at h
  | some j => exact List.mem_of_find?_eq_some h

theorem findById_of_mem {s : Store} {u : User} (h : u ∈ s) :
    ∃ v, findById s (some u.id) = some v := by
  cases hf : findById s (some u.id) with
  | some v => exact ⟨v, rfl⟩
  | none =>
    simp only [findById, List.find?_eq_none] at hf
    have := hf u h
    simp at this

theorem mem_put {s : Store} {u x : User} :
    x ∈ put s u ↔ ∃ d ∈ s, x = if d.id = u.id then u else d := by
  simp only [put, List.mem_map]
  constructor
  · rintro ⟨d, hd, rfl⟩
    exact ⟨d, hd, rfl⟩
  · rintro ⟨d, hd, rfl⟩
    exact ⟨d, hd, rfl⟩

theorem findById_put (s : Store) (u : User) (i : Id) :
    findById (put s u) (some i) =
      if i = u.id then (findById s (some i)).map (fun _ => u) else findById s (some i) := by
  induction s with
  | nil => simp [findById, put]
  | cons d s ih =>
    simp only [findById, put, List.map_cons, List.find?_cons] at ih ⊢
    by_cases hd : d.id = u.id
    · by_cases hi : i = u.id
      · have hb : (u.id == i) = true := by simp [hi]
        have hb2 : (d.id == i) = true := by simp [hi, hd]
        simp [hd, hi, hb, hb2]
      · have hb : (u.id == i) = false := by simpa using fun h => hi h.symm
        have hb2 : (d.id == i) = false := by simpa [hd] using fun h => hi h.symm
        simp only [hi, if_false] at ih
        simp only [hd, if_true, hb, hb2, hi, if_false, ih]
    · by_cases hdi : d.id = i
      · have hi : ¬ i = u.id := fun h => hd (hdi.trans h)
        have hb : (d.id == i) = true := by simp [hdi]
        simp only [hd, if_false, hb, hi]
      · have hb : (d.id == i) = false := by simpa using hdi
        simp only [hd, if_false, hb, ih]

theorem findById_put_self {s : Store} {u v : User} (h : findById s (some u.id) = some v) :
    findById (put s u) (some u.id) = some u := by
  rw [findById_put]; simp [h]

theorem findById_put_ne {s : Store} {u : User} {i : Id} (h : i ≠ u.id) :
    findById (put s u) (some i) = findById s (some i) := by
  rw [findById_put]; simp [h]

theorem put_put_eq_map (s : Store) (u f : User) :
    put (put s u) f =
      s.map (fun d => if d.id = f.id then f else if d.id = u.id then u else d) := by
  simp only [put, List.map_map]
  apply List.map_congr_left
  intro d _
  by_cases hu : d.id = u.id
  · by_cases hf : d.id = f.id
    · have : u.id = f.id := hu ▸ hf
      simp [hu, this]
    · have : ¬ u.id = f.id := fun h => hf (hu.trans h)
      simp [hu, this]
  · simp [hu]

/-! ## Text comparison -/

theorem differs_canonical (a x : Id) : (FriendId.text a true).differs x = (x != a) := by
  simp [FriendId.differs, bne]

theorem differs_other (a x : Id) : (FriendId.text a false).differs x = true := by
  simp [FriendId.differs]

theorem includes_canonical (l : List Id) (a : Id) :
    includes l (.text a true) = decide (a ∈ l) := by
  induction l with
  | nil => simp [includes]
  | cons x l ih =>
    simp only [includes, List.any_cons, differs_canonical] at ih ⊢
    rw [ih]
    by_cases hx : x = a
    · simp [hx]
    · have : ¬ a = x := fun h => hx h.symm
      simp [hx, this]

theorem includes_other (l : List Id) (a : Id) : includes l (.text a false) = false := by
  induction l with
  | nil => simp [includes]
  | cons x l ih =>
    simp only [includes, List.any_cons, differs_other] at ih ⊢
    simp [ih]

theorem includes_malformed (l : List Id) : includes l .malformed = false := by
  induction l with
  | nil => simp [includes]
  | cons x l ih =>
    simp only [includes, List.any_cons, FriendId.differs] at ih ⊢
    simp [ih]

theorem filter_differs_canonical (l : List Id) (a : Id) :
    l.filter (fun id => (FriendId.text a true).differs id) = l.filter (fun id => id != a) := by
  simp only [differs_canonical]

theorem filter_differs_other (l : List Id) (a : Id) :
    l.filter (fun id => (FriendId.text a false).differs id) = l := by
  rw [List.filter_eq_self]
  intro x _
  exact differs_other a x

theorem filter_ne_eq_self {l : List Id} {a : Id} :
    l.filter (fun id => id != a) = l ↔ a ∉ l := by
  rw [List.filter_eq_self]
  constructor
  · intro h ha
    have := h a ha
    simp at this
  · intro h x hx
    have : x ≠ a := fun hxa => h (hxa ▸ hx)
    simpa using this

theorem filter_ne_idem (l : List Id) (a : Id) :
    (l.filter (fun id => id != a)).filter (fun id => id != a) = l.filter (fun id => id != a) := by
  rw [List.filter_filter]
  simp

theorem not_mem_filter_ne (l : List Id) (a : Id) : a ∉ l.filter (fun id => id != a) := by
  simp [List.mem_filter]

theorem nodup_append_singleton {l : List Id} {a : Id} (h : l.Nodup) (ha : a ∉ l) :
    (l ++ [a]).Nodup := by
  rw [List.nodup_append]
  refine ⟨h, List.nodup_singleton a, ?_⟩
  intro x hx hy
  rw [List.mem_singleton] at hy
  exact ha (hy ▸ hx)

/-! ## What each handler returns -/

theorem findById_id_eq {s : Store} {i : Id} {u : User} (h : findById s (some i) = some u) :
    u.id = i := by
  have := findById_id h
  simpa using this.symm

theorem sendFriendRequest_eq {s : Store} {a b : Id} {c : Bool} {ua ub : User}
    (ha : findById s (some a) = some ua) (hb : findById s (some b) = some ub)
    (hreq : a ∉ ub.friendRequests) :
    sendFriendRequest s (some a) (some (.text b c)) =
      (put s { ub with friendRequests := ub.friendRequests ++ [a], version := ub.version + 1 },
        ⟨200, "Friend request sent successfully"⟩) := by
  have hidb := findById_id_eq hb
  simp [sendFriendRequest, ha, hb, load, Doc.friendRequestsValue, Change.apply, hreq,
    Doc.pushFriendRequests, Change.push, save, hidb, Change.isAssigned]

theorem acceptFriendRequest_eq {s : Store} {a b : Id} {ua ub : User}
    (ha : findById s (some a) = some ua) (hb : findById s (some b) = some ub)
    (hreq : a ∈ ub.friendRequests) :
    acceptFriendRequest s (some b) (some (.text a true)) =
      (put (put s { ub with
            friendRequests := ub.friendRequests.filter (fun id => id != a)
            friends := ub.friends ++ [a]
            version := ub.version + 1 })
          (if a = b then
            { ub with
              friendRequests := ub.friendRequests.filter (fun id => id != a)
              friends := ub.friends ++ [a] ++ [b]
              version := ub.version + 2 }
          else { ua with friends := ua.friends ++ [b], version := ua.version + 1 }),
        ⟨200, "Friend request accepted"⟩) := by
  have hida := findById_id_eq ha
  have hidb := findById_id_eq hb
  have hne : ¬ ub.friendRequests.filter (fun id => id != a) = ub.friendRequests := by
    rw [filter_ne_eq_self]; exact fun h => h hreq
  have hs1 : save s (((load ub).setFriendRequests
      ((load ub).friendRequestsValue.filter
        (fun id => (FriendId.text a true).differs id))).pushFriends a) =
      some (put s { ub with
        friendRequests := ub.friendRequests.filter (fun id => id != a)
        friends := ub.friends ++ [a]
        version := ub.version + 1 }) := by
    simp [load, Doc.friendRequestsValue, Change.apply, Doc.setFriendRequests,
      filter_differs_canonical, hne, Doc.pushFriends, Change.push, save, hidb, hb,
      Change.isAssigned]
  have hfind : findById (put s { ub with
        friendRequests := ub.friendRequests.filter (fun id => id != a)
        friends := ub.friends ++ [a]
        version := ub.version + 1 }) (some a) =
      some (if a = b then { ub with
        friendRequests := ub.friendRequests.filter (fun id => id != a)
        friends := ub.friends ++ [a]
        version := ub.version + 1 } else ua) := by
    rw [findById_put]
    by_cases hab : a = b
    · simp [hab, hidb, hb]
    · simp [hab, hidb, ha]
  have hs2 : save (put s { ub with
        friendRequests := ub.friendRequests.filter (fun id => id != a)
        friends := ub.friends ++ [a]
        version := ub.version + 1 }) ((load ua).pushFriends b) =
      some (put (put s { ub with
            friendRequests := ub.friendRequests.filter (fun id => id != a)
            friends := ub.friends ++ [a]
            version := ub.version + 1 })
          (if a = b then
            { ub with
              friendRequests := ub.friendRequests.filter (fun id => id != a)
              friends := ub.friends ++ [a] ++ [b]
              version := ub.version + 2 }
          else { ua with friends := ua.friends ++ [b], version := ua.version + 1 })) := by
    simp only [load, Doc.pushFriends, Change.push, save, hida, hfind]
    by_cases hab : a = b
    · simp [hab, Change.apply, Change.isAssigned, hidb]
    · simp [hab, Change.apply, Change.isAssigned, hida]
  simp only [acceptFriendRequest, ha, hb]
  simp only [includes_canonical, load, Doc.friendRequestsValue, Change.apply, hreq,
    decide_True, Bool.true_eq_false, if_false] at hs1 ⊢
  simp only [load] at hs2
  simp [hs1, hs2]

theorem rejectFriendRequest_eq {s : Store} {a b : Id} {ub : User}
    (hb : findById s (some b) = some ub) (hreq : a ∈ ub.friendRequests) :
    rejectFriendRequest s (some b) (some (.text a true)) =
      (put s { ub with
          friendRequests := ub.friendRequests.filter (fun id => id != a)
          version := ub.version + 1 },
        ⟨200, "Friend request rejected"⟩) := by
  have hidb := findById_id_eq hb
  have hne : ¬ ub.friendRequests.filter (fun id => id != a) = ub.friendRequests := by
    rw [filter_ne_eq_self]; exact fun h => h hreq
  simp [rejectFriendRequest, hb, includes_canonical, load, Doc.friendRequestsValue,
    Change.apply, hreq, Doc.setFriendRequests, filter_differs_canonical, hne, save, hidb,
    Change.isAssigned]

theorem unfriend_eq {s : Store} {a b : Id} {c : Bool} {ua ub : User}
    (ha : findById s (some a) = some ua) (hb : findById s (some b) = some ub) :
    unfriend s (some a) (some (.text b c)) =
      if ua.friends.filter (fun id => (FriendId.text b c).differs id) = ua.friends then
        if ub.friends.filter (fun id => id != a) = ub.friends then
          (s, ⟨200, "Friend removed successfully"⟩)
        else
          (put s { ub with
              friends := ub.friends.filter (fun id => id != a)
              version := ub.version + 1 },
            ⟨200, "Friend removed successfully"⟩)
      else if ub.friends.filter (fun id => id != a) = ub.friends then
        (put s { ua with
            friends := ua.friends.filter (fun id => (FriendId.text b c).differs id)
            version := ua.version + 1 },
          ⟨200, "Friend removed successfully"⟩)
      else if a = b then
        (put s { ua with
            friends := ua.friends.filter (fun id => (FriendId.text b c).differs id)
            version := ua.version + 1 },
          ⟨500, "Error removing friend"⟩)
      else
        (put (put s { ua with
              friends := ua.friends.filter (fun id => (FriendId.text b c).differs id)
              version := ua.version + 1 })
            { ub with
              friends := ub.friends.filter (fun id => id != a)
              version := ub.version + 1 },
          ⟨200, "Friend removed successfully"⟩) := by
  have hida := findById_id_eq ha
  have hidb := findById_id_eq hb
  simp only [unfriend, ha, hb, load, Doc.friendsValue, Change.apply, Doc.setFriends]
  by_cases hfa : ua.friends.filter (fun id => (FriendId.text b c).differs id) = ua.friends
  · by_cases hfb : ub.friends.filter (fun id => id != a) = ub.friends
    · simp [hfa, hfb, save]
    · simp [hfa, hfb, save, hidb, hb, Change.isAssigned, Change.apply]
  · have hs1 : save s (⟨ua, .assigned
          (ua.friends.filter (fun id => (FriendId.text b c).differs id)), .clean⟩ : Doc) =
        some (put s { ua with
          friends := ua.friends.filter (fun id => (FriendId.text b c).differs id)
          version := ua.version + 1 }) := by
      simp [save, hida, ha, Change.isAssigned, Change.apply]
    by_cases hfb : ub.friends.filter (fun id => id != a) = ub.friends
    · simp only [hfa, hfb, if_true, if_false, hs1]
      simp [save]
    · by_cases hab : a = b
      · subst hab
        have hu : ua = ub := by rw [ha] at hb; exact Option.some.inj hb
        subst hu
        have hfind : findById (put s { ua with
            friends := ua.friends.filter (fun id => (FriendId.text a c).differs id)
            version := ua.version + 1 }) (some ua.id) =
            some { ua with
              friends := ua.friends.filter (fun id => (FriendId.text a c).differs id)
              version := ua.version + 1 } := by
          rw [findById_put]; simp [hida, ha]
        simp only [hfa, hfb, if_true, if_false, hs1]
        simp [save, hfind, Change.isAssigned]
      · have hfind : findById (put s { ua with
            friends := ua.friends.filter (fun id => (FriendId.text b c).differs id)
            version := ua.version + 1 }) (some ub.id) = some ub := by
          rw [findById_put]
          have hne : ¬ ub.id = ua.id := by rw [hida, hidb]; exact fun h => hab h.symm
          rw [if_neg hne, hidb]; exact hb
        simp only [hfa, hfb, if_true, if_false, hs1]
        simp [save, hfind, Change.isAssigned, Change.apply, hab]

/-! ## When a handler writes -/

theorem sendFriendRequest_cases (s : Store) (userId : Option Id) (friendId : Option FriendId) :
    (sendFriendRequest s userId friendId).1 = s ∨
    ∃ a b c ua ub, userId = some a ∧ friendId = some (.text b c) ∧
      findById s (some a) = some ua ∧ findById s (some b) = some ub ∧
      a ∉ ub.friendRequests := by
  cases userId with
  | none => exact Or.inl (by simp [sendFriendRequest])
  | some a =>
    cases friendId with
    | none => exact Or.inl (by simp [sendFriendRequest])
    | some f =>
      cases hu : findById s (some a) with
      | none => exact Or.inl (by simp [sendFriendRequest, hu])
      | some ua =>
        cases f with
        | malformed => exact Or.inl (by simp [sendFriendRequest, hu])
        | text b c =>
          cases hf : findById s (some b) with
          | none => exact Or.inl (by simp [sendFriendRequest, hu, hf])
          | some ub =>
            by_cases hreq : a ∈ ub.friendRequests
            · exact Or.inl (by
                simp [sendFriendRequest, hu, hf, load, Doc.friendRequestsValue, Change.apply,
                  hreq])
            · exact Or.inr ⟨a, b, c, ua, ub, rfl, rfl, hu, hf, hreq⟩

theorem acceptFriendRequest_cases (s : Store) (userId : Option Id)
    (friendId : Option FriendId) :
    (acceptFriendRequest s userId friendId).1 = s ∨
    ∃ a b ua ub, userId = some b ∧ friendId = some (.text a true) ∧
      findById s (some a) = some ua ∧ findById s (some b) = some ub ∧
      a ∈ ub.friendRequests := by
  cases friendId with
  | none => exact Or.inl (by simp [acceptFriendRequest])
  | some f =>
    cases f with
    | malformed => exact Or.inl (by simp [acceptFriendRequest])
    | text a c =>
      cases hf : findById s (some a) with
      | none => exact Or.inl (by simp [acceptFriendRequest, hf])
      | some ua =>
        cases userId with
        | none => exact Or.inl (by simp [acceptFriendRequest, hf, findById_none])
        | some b =>
          cases hu : findById s (some b) with
          | none => exact Or.inl (by simp [acceptFriendRequest, hf, hu])
          | some ub =>
            cases c with
            | false =>
              exact Or.inl (by
                simp [acceptFriendRequest, hf, hu, includes_other])
            | true =>
              by_cases hreq : a ∈ ub.friendRequests
              · exact Or.inr ⟨a, b, ua, ub, rfl, rfl, hf, hu, hreq⟩
              · exact Or.inl (by
                  simp [acceptFriendRequest, hf, hu, includes_canonical, load,
                    Doc.friendRequestsValue, Change.apply, hreq])

theorem rejectFriendRequest_cases (s : Store) (userId : Option Id)
    (friendId : Option FriendId) :
    (rejectFriendRequest s userId friendId).1 = s ∨
    ∃ a b ub, userId = some b ∧ friendId = some (.text a true) ∧
      findById s (some b) = some ub ∧ a ∈ ub.friendRequests := by
  cases userId with
  | none => exact Or.inl (by simp [rejectFriendRequest, findById_none])
  | some b =>
    cases hu : findById s (some b) with
    | none => exact Or.inl (by simp [rejectFriendRequest, hu])
    | some ub =>
      cases friendId with
      | none => exact Or.inl (by simp [rejectFriendRequest, hu])
      | some f =>
        cases f with
        | malformed =>
          exact Or.inl (by simp [rejectFriendRequest, hu, includes_malformed])
        | text a c =>
          cases c with
          | false => exact Or.inl (by simp [rejectFriendRequest, hu, includes_other])
          | true =>
            by_cases hreq : a ∈ ub.friendRequests
            · exact Or.inr ⟨a, b, ub, rfl, rfl, hu, hreq⟩
            · exact Or.inl (by
                simp [rejectFriendRequest, hu, includes_canonical, load,
                  Doc.friendRequestsValue, Change.apply, hreq])

theorem unfriend_cases (s : Store) (userId : Option Id) (friendId : Option FriendId) :
    (unfriend s userId friendId).1 = s ∨
    ∃ a b c ua ub, userId = some a ∧ friendId = some (.text b c) ∧
      findById s (some a) = some ua ∧ findById s (some b) = some ub := by
  cases friendId with
  | none => exact Or.inl (by simp [unfriend])
  | some f =>
    cases f with
    | malformed => exact Or.inl (by simp [unfriend])
    | text b c =>
      cases hf : findById s (some b) with
      | none => exact Or.inl (by simp [unfriend, hf])
      | some ub =>
        cases userId with
        | none => exact Or.inl (by simp [unfriend, hf, findById_none])
        | some a =>
          cases hu : findById s (some a) with
          | none => exact Or.inl (by simp [unfriend, hf, hu])
          | some ua => exact Or.inr ⟨a, b, c, ua, ub, rfl, rfl, hu, hf⟩

/-! ## Sending and accepting a request -/

/-- Claim C1: for distinct stored users `a` and `b` with `a` not yet in
`b.friendRequests`, `sendFriendRequest(a, b)` succeeds and appends `a` to
`b.friendRequests`; `acceptFriendRequest(b, a)` run next succeeds and leaves
`a` in `b.friends`, `b` in `a.friends` and `a` out of `b.friendRequests`. -/
theorem send_then_accept (s : Store) (a b : Id) (ua ub : User)
    (ha : findById s (some a) = some ua) (hb : findById s (some b) = some ub)
    (hab : a ≠ b) (hreq : a ∉ ub.friendRequests) :
    (sendFriendRequest s (some a) (some (.text b true))).2 =
      ⟨200, "Friend request sent successfully"⟩ ∧
    (∃ ub1, findById (sendFriendRequest s (some a) (some (.text b true))).1 (some b) = some ub1 ∧
      a ∈ ub1.friendRequests) ∧
    (acceptFriendRequest (sendFriendRequest s (some a) (some (.text b true))).1 (some b)
      (some (.text a true))).2 = ⟨200, "Friend request accepted"⟩ ∧
    (∃ ua2 ub2,
      findById (acceptFriendRequest (sendFriendRequest s (some a) (some (.text b true))).1
        (some b) (some (.text a true))).1 (some a) = some ua2 ∧
      findById (acceptFriendRequest (sendFriendRequest s (some a) (some (.text b true))).1
        (some b) (some (.text a true))).1 (some b) = some ub2 ∧
      b ∈ ua2.friends ∧ a ∈ ub2.friends ∧ a ∉ ub2.friendRequests) := by
  have hida := findById_id_eq ha
  have hidb := findById_id_eq hb
  have hb1 : findById (put s
      { ub with friendRequests := ub.friendRequests ++ [a], version := ub.version + 1 })
      (some b) =
      some { ub with friendRequests := ub.friendRequests ++ [a], version := ub.version + 1 } := by
    rw [findById_put]; simp [hidb, hb]
  have ha1 : findById (put s
      { ub with friendRequests := ub.friendRequests ++ [a], version := ub.version + 1 })
      (some a) = some ua := by
    rw [findById_put_ne (by simpa [hidb] using hab)]; exact ha
  rw [sendFriendRequest_eq ha hb hreq]
  refine ⟨rfl, ⟨_, hb1, by simp⟩, ?_, ?_⟩
  · rw [acceptFriendRequest_eq ha1 hb1 (by simp)]
  · rw [acceptFriendRequest_eq ha1 hb1 (by simp)]
    simp only [if_neg hab]
    refine ⟨{ ua with friends := ua.friends ++ [b], version := ua.version + 1 },
      { ub with
        friendRequests := (ub.friendRequests ++ [a]).filter (fun id => id != a)
        friends := ub.friends ++ [a]
        version := ub.version + 1 + 1 }, ?_, ?_, by simp, by simp, by simp⟩
    · have ha2 := ha1
      simp only [hidb] at ha2
      rw [findById_put, findById_put]
      simp [hida, hidb, hab, ha2]
    · have hb2 := hb1
      simp only [hidb] at hb2
      rw [findById_put, findById_put]
      have hba : ¬ b = a := fun h => hab h.symm
      simp [hida, hidb, hba, hb2]

/-- The example of the specification: user 1 with no friends sends a request to
user 2 with no pending requests, user 2 accepts; the store ends with
`1.friends = [2]`, `2.friends = [1]`, `2.friendRequests = []`. -/
theorem send_then_accept_witness :
    (acceptFriendRequest (sendFriendRequest [sampleUser 1 [] [], sampleUser 2 [] []]
        (some 1) (some (.text 2 true))).1 (some 2) (some (.text 1 true))).1
      = [{ sampleUser 1 [2] [] with version := 1 }, { sampleUser 2 [1] [] with version := 2 }] ∧
    (∃ ua2 ub2,
      findById (acceptFriendRequest (sendFriendRequest [sampleUser 1 [] [], sampleUser 2 [] []]
        (some 1) (some (.text 2 true))).1 (some 2) (some (.text 1 true))).1 (some 1) = some ua2 ∧
      findById (acceptFriendRequest (sendFriendRequest [sampleUser 1 [] [], sampleUser 2 [] []]
        (some 1) (some (.text 2 true))).1 (some 2) (some (.text 1 true))).1 (some 2) = some ub2 ∧
      2 ∈ ua2.friends ∧ 1 ∈ ub2.friends ∧ 1 ∉ ub2.friendRequests) :=
  ⟨by decide,
    (send_then_accept [sampleUser 1 [] [], sampleUser 2 [] []] 1 2
      (sampleUser 1 [] []) (sampleUser 2 [] []) (by decide) (by decide) (by decide)
      (by decide)).2.2.2⟩

/-! ## Duplicates -/

theorem requestsNoDuplicates_put {s : Store} {u : User} (h : RequestsNoDuplicates s)
    (hu : u.friendRequests.Nodup) : RequestsNoDuplicates (put s u) := by
  intro x hx
  obtain ⟨d, hd, rfl⟩ := mem_put.mp hx
  by_cases hid : d.id = u.id
  · simpa [hid] using hu
  · simpa [hid] using h d hd

theorem noDuplicates_put {s : Store} {u : User} (h : NoDuplicates s)
    (hu : u.friends.Nodup ∧ u.friendRequests.Nodup) : NoDuplicates (put s u) := by
  intro x hx
  obtain ⟨d, hd, rfl⟩ := mem_put.mp hx
  by_cases hid : d.id = u.id
  · simpa [hid] using hu
  · simpa [hid] using h d hd

theorem requestsNoDuplicates_step (s : Store) (op : Op) (h : RequestsNoDuplicates s) :
    RequestsNoDuplicates (step s op) := by
  cases op with
  | send u f =>
    rcases sendFriendRequest_cases s u f with h0 | ⟨a, b, c, ua, ub, rfl, rfl, ha, hb, hreq⟩
    · simpa [step, h0] using h
    · simp only [step, sendFriendRequest_eq ha hb hreq]
      exact requestsNoDuplicates_put h (nodup_append_singleton (h ub (findById_mem hb)) hreq)
  | accept u f =>
    rcases acceptFriendRequest_cases s u f with h0 | ⟨a, b, ua, ub, rfl, rfl, ha, hb, hreq⟩
    · simpa [step, h0] using h
    · simp only [step, acceptFriendRequest_eq ha hb hreq]
      refine requestsNoDuplicates_put
        (requestsNoDuplicates_put h ((h ub (findById_mem hb)).filter _)) ?_
      by_cases hab : a = b
      · simpa [hab] using (h ub (findById_mem hb)).filter _
      · simpa [hab] using h ua (findById_mem ha)
  | reject u f =>
    rcases rejectFriendRequest_cases s u f with h0 | ⟨a, b, ub, rfl, rfl, hb, hreq⟩
    · simpa [step, h0] using h
    · simp only [step, rejectFriendRequest_eq hb hreq]
      exact requestsNoDuplicates_put h ((h ub (findById_mem hb)).filter _)
  | unfriend u f =>
    rcases unfriend_cases s u f with h0 | ⟨a, b, c, ua, ub, rfl, rfl, ha, hb⟩
    · simpa [step, h0] using h
    · simp only [step, unfriend_eq ha hb]
      have hua := h ua (findById_mem ha)
      have hub := h ub (findById_mem hb)
      split_ifs
      · exact h
      · exact requestsNoDuplicates_put h hub
      · exact requestsNoDuplicates_put h hua
      · exact requestsNoDuplicates_put h hua
      · exact requestsNoDuplicates_put (requestsNoDuplicates_put h hua) hub

theorem requestsNoDuplicates_run (ops : List Op) :
    ∀ s : Store, RequestsNoDuplicates s → RequestsNoDuplicates (run s ops) := by
  induction ops with
  | nil => intro s h; exact h
  | cons op ops ih =>
    intro s h
    exact ih (step s op) (requestsNoDuplicates_step s op h)

theorem noDuplicates_step (s : Store) (op : Op) (h : NoDuplicates s)
    (hfresh : fresh s op = true) : NoDuplicates (step s op) := by
  cases op with
  | send u f =>
    rcases sendFriendRequest_cases s u f with h0 | ⟨a, b, c, ua, ub, rfl, rfl, ha, hb, hreq⟩
    · simpa [step, h0] using h
    · simp only [step, sendFriendRequest_eq ha hb hreq]
      exact noDuplicates_put h
        ⟨(h ub (findById_mem hb)).1, nodup_append_singleton (h ub (findById_mem hb)).2 hreq⟩
  | accept u f =>
    rcases acceptFriendRequest_cases s u f with h0 | ⟨a, b, ua, ub, rfl, rfl, ha, hb, hreq⟩
    · simpa [step, h0] using h
    · have hida := findById_id_eq ha
      have hidb := findById_id_eq hb
      simp only [fresh, ha, hb, hida, hidb, decide_eq_true_eq] at hfresh
      have hab : ¬ a = b := fun e => hfresh.1 e.symm
      simp only [step, acceptFriendRequest_eq ha hb hreq, if_neg hab]
      exact noDuplicates_put
        (noDuplicates_put h
          ⟨nodup_append_singleton (h ub (findById_mem hb)).1 hfresh.2.1,
            (h ub (findById_mem hb)).2.filter _⟩)
        ⟨nodup_append_singleton (h ua (findById_mem ha)).1 hfresh.2.2,
          (h ua (findById_mem ha)).2⟩
  | reject u f =>
    rcases rejectFriendRequest_cases s u f with h0 | ⟨a, b, ub, rfl, rfl, hb, hreq⟩
    · simpa [step, h0] using h
    · simp only [step, rejectFriendRequest_eq hb hreq]
      exact noDuplicates_put h
        ⟨(h ub (findById_mem hb)).1, (h ub (findById_mem hb)).2.filter _⟩
  | unfriend u f =>
    rcases unfriend_cases s u f with h0 | ⟨a, b, c, ua, ub, rfl, rfl, ha, hb⟩
    · simpa [step, h0] using h
    · simp only [step, unfriend_eq ha hb]
      have hua := h ua (findById_mem ha)
      have hub := h ub (findById_mem hb)
      split_ifs
      · exact h
      · exact noDuplicates_put h ⟨hub.1.filter _, hub.2⟩
      · exact noDuplicates_put h ⟨hua.1.filter _, hua.2⟩
      · exact noDuplicates_put h ⟨hua.1.filter _, hua.2⟩
      · exact noDuplicates_put (noDuplicates_put h ⟨hua.1.filter _, hua.2⟩)
          ⟨hub.1.filter _, hub.2⟩

theorem noDuplicates_run (ops : List Op) :
    ∀ s : Store, NoDuplicates s → freshRun s ops = true → NoDuplicates (run s ops) := by
  induction ops with
  | nil => intro s h _; exact h
  | cons op ops ih =>
    intro s h hf
    simp only [freshRun, Bool.and_eq_true] at hf
    exact ih (step s op) (noDuplicates_step s op h hf.1) hf.2

/-- Claim C3, as stated, fails: users 1 and 2 are friends without duplicates;
user 1 sends a request to user 2 again and user 2 accepts it; each friends list
then holds the other identifier twice. -/
theorem noDuplicates_counterexample :
    NoDuplicates [sampleUser 1 [2] [], sampleUser 2 [1] []] ∧
    run [sampleUser 1 [2] [], sampleUser 2 [1] []]
        [.send (some 1) (some (.text 2 true)), .accept (some 2) (some (.text 1 true))]
      = [{ sampleUser 1 [2, 2] [] with version := 1 },
          { sampleUser 2 [1, 1] [] with version := 2 }] ∧
    ¬ NoDuplicates (run [sampleUser 1 [2] [], sampleUser 2 [1] []]
        [.send (some 1) (some (.text 2 true)), .accept (some 2) (some (.text 1 true))]) := by
  decide

/-- Claim C3, amended: from a store without duplicates, after any sequence of
`sendFriendRequest`, `acceptFriendRequest`, `rejectFriendRequest` and `unfriend`
calls no `friendRequests` list holds an identifier twice; and no `friends` list
does either when every `acceptFriendRequest` of the sequence is between two
distinct users neither of whom is yet in the friends list of the other. -/
theorem noDuplicates_amended (s : Store) (ops : List Op) (h : NoDuplicates s) :
    RequestsNoDuplicates (run s ops) ∧
    (freshRun s ops = true → NoDuplicates (run s ops)) :=
  ⟨requestsNoDuplicates_run ops s (fun u hu => (h u hu).2), noDuplicates_run ops s h⟩

/-- A run of all four handlers from a store without duplicates. -/
theorem noDuplicates_amended_witness :
    RequestsNoDuplicates (run [sampleUser 1 [] [], sampleUser 2 [] [3], sampleUser 3 [] []]
      [.send (some 1) (some (.text 2 true)), .accept (some 2) (some (.text 1 true)),
        .reject (some 2) (some (.text 3 true)), .unfriend (some 1) (some (.text 2 true)),
        .send (some 1) (some (.text 2 true))]) ∧
    NoDuplicates (run [sampleUser 1 [] [], sampleUser 2 [] [3], sampleUser 3 [] []]
      [.send (some 1) (some (.text 2 true)), .accept (some 2) (some (.text 1 true)),
        .reject (some 2) (some (.text 3 true)), .unfriend (some 1) (some (.text 2 true)),
        .send (some 1) (some (.text 2 true))]) :=
  ⟨(noDuplicates_amended [sampleUser 1 [] [], sampleUser 2 [] [3], sampleUser 3 [] []]
      [.send (some 1) (some (.text 2 true)), .accept (some 2) (some (.text 1 true)),
        .reject (some 2) (some (.text 3 true)), .unfriend (some 1) (some (.text 2 true)),
        .send (some 1) (some (.text 2 true))] (by decide)).1,
    (noDuplicates_amended [sampleUser 1 [] [], sampleUser 2 [] [3], sampleUser 3 [] []]
      [.send (some 1) (some (.text 2 true)), .accept (some 2) (some (.text 1 true)),
        .reject (some 2) (some (.text 3 true)), .unfriend (some 1) (some (.text 2 true)),
        .send (some 1) (some (.text 2 true))] (by decide)).2 (by decide)⟩

/-! ## Friendship symmetry -/

theorem symmetric_map (s : Store) (upd : User → User)
    (h : ∀ x ∈ s, ∀ y ∈ s, ((upd x).id ∈ (upd y).friends ↔ (upd y).id ∈ (upd x).friends)) :
    Symmetric (s.map upd) := by
  intro x hx y hy
  obtain ⟨x0, hx0, rfl⟩ := List.mem_map.mp hx
  obtain ⟨y0, hy0, rfl⟩ := List.mem_map.mp hy
  exact h x0 hx0 y0 hy0

theorem symmetric_send (s : Store) (u : Option Id) (f : Option FriendId) (h : Symmetric s) :
    Symmetric (sendFriendRequest s u f).1 := by
  rcases sendFriendRequest_cases s u f with h0 | ⟨a, b, c, ua, ub, rfl, rfl, ha, hb, hreq⟩
  · rw [h0]; exact h
  · rw [sendFriendRequest_eq ha hb hreq]
    have hub := findById_mem hb
    apply symmetric_map
    intro x hx y hy
    have hxy := h x hx y hy
    have hxb := h x hx ub hub
    have hby := h ub hub y hy
    by_cases hxi : x.id = ub.id <;> by_cases hyi : y.id = ub.id <;> simp_all

theorem symmetric_reject (s : Store) (u : Option Id) (f : Option FriendId) (h : Symmetric s) :
    Symmetric (rejectFriendRequest s u f).1 := by
  rcases rejectFriendRequest_cases s u f with h0 | ⟨a, b, ub, rfl, rfl, hb, hreq⟩
  · rw [h0]; exact h
  · rw [rejectFriendRequest_eq hb hreq]
    have hub := findById_mem hb
    apply symmetric_map
    intro x hx y hy
    have hxy := h x hx y hy
    have hxb := h x hx ub hub
    have hby := h ub hub y hy
    by_cases hxi : x.id = ub.id <;> by_cases hyi : y.id = ub.id <;> simp_all

theorem symmetric_accept (s : Store) (u : Option Id) (f : Option FriendId) (h : Symmetric s) :
    Symmetric (acceptFriendRequest s u f).1 := by
  rcases acceptFriendRequest_cases s u f with h0 | ⟨a, b, ua, ub, rfl, rfl, ha, hb, hreq⟩
  · rw [h0]; exact h
  · rw [acceptFriendRequest_eq ha hb hreq]
    have hua := findById_mem ha
    have hub := findById_mem hb
    have hida := findById_id_eq ha
    have hidb := findById_id_eq hb
    simp only [put_put_eq_map]
    apply symmetric_map
    intro x hx y hy
    have hxy := h x hx y hy
    have hxa := h x hx ua hua
    have hxb := h x hx ub hub
    have hay := h ua hua y hy
    have hby := h ub hub y hy
    have hab := h ua hua ub hub
    by_cases hab' : a = b
    · subst hab'
      by_cases hxa' : x.id = a <;> by_cases hya' : y.id = a <;>
        simp_all [List.mem_append]
    · by_cases hxa' : x.id = a <;> by_cases hxb' : x.id = b <;>
        by_cases hya' : y.id = a <;> by_cases hyb' : y.id = b <;>
        simp_all [List.mem_append]

theorem symmetric_unfriend (s : Store) (u : Option Id) (f : Option FriendId)
    (h : Symmetric s) (hc : unfriendsByOtherSpelling (.unfriend u f) = false) :
    Symmetric (unfriend s u f).1 := by
  rcases unfriend_cases s u f with h0 | ⟨a, b, c, ua, ub, rfl, rfl, ha, hb⟩
  · rw [h0]; exact h
  · have hct : c = true := by
      cases c with
      | true => rfl
      | false => simp [unfriendsByOtherSpelling] at hc
    subst hct
    have hua := findById_mem ha
    have hub := findById_mem hb
    have hida := findById_id_eq ha
    have hidb := findById_id_eq hb
    have hab := h ua hua ub hub
    rw [hida, hidb] at hab
    rw [unfriend_eq ha hb]
    simp only [filter_differs_canonical, filter_ne_eq_self]
    by_cases hba : b ∈ ua.friends
    · have hab2 : a ∈ ub.friends := hab.mpr hba
      simp only [hba, hab2, not_true_eq_false, if_false]
      by_cases hab' : a = b
      · subst hab'
        simp only [if_true]
        apply symmetric_map
        intro x hx y hy
        have hxy := h x hx y hy
        have hxa := h x hx ua hua
        have hay := h ua hua y hy
        by_cases hxa' : x.id = a <;> by_cases hya' : y.id = a <;>
          simp_all [List.mem_filter]
      · simp only [if_neg hab', put_put_eq_map]
        apply symmetric_map
        intro x hx y hy
        have hxy := h x hx y hy
        have hxa := h x hx ua hua
        have hxb := h x hx ub hub
        have hay := h ua hua y hy
        have hby := h ub hub y hy
        by_cases hxa' : x.id = a <;> by_cases hxb' : x.id = b <;>
          by_cases hya' : y.id = a <;> by_cases hyb' : y.id = b <;>
          simp_all [List.mem_filter]
    · have hab2 : a ∉ ub.friends := fun e => hba (hab.mp e)
      simp only [hba, hab2, not_false_eq_true, if_true]
      exact h

/-- Claim C2, as stated, fails: users 1 and 2 are friends; user 1 calls
`unfriend` with the identifier of user 2 written in another spelling than the
canonical one.  The lookup finds user 2, the text filter removes nothing from
`1.friends`, and user 1 is removed from `2.friends`: both saves succeed, the
answer is 200, and user 2 is in `1.friends` while user 1 is not in `2.friends`. -/
theorem symmetric_counterexample :
    Symmetric [sampleUser 1 [2] [], sampleUser 2 [1] []] ∧
    unfriend [sampleUser 1 [2] [], sampleUser 2 [1] []] (some 1) (some (.text 2 false)) =
      ([sampleUser 1 [2] [], { sampleUser 2 [] [] with version := 1 }],
        ⟨200, "Friend removed successfully"⟩) ∧
    ¬ Symmetric (step [sampleUser 1 [2] [], sampleUser 2 [1] []]
      (.unfriend (some 1) (some (.text 2 false)))) := by
  decide

/-- Claim C2, amended: friendship symmetry is an invariant of
`sendFriendRequest`, `acceptFriendRequest` and `rejectFriendRequest` with any
user and any `friendId`, and of `unfriend` with any user and any `friendId`
that is not text in a spelling other than the canonical one, whether the call
answers with success or with an error. -/
theorem symmetric_preserved (s : Store) (op : Op) (h : Symmetric s)
    (hc : unfriendsByOtherSpelling op = false) :
    Symmetric (step s op) := by
  cases op with
  | send u f => exact symmetric_send s u f h
  | accept u f => exact symmetric_accept s u f h
  | reject u f => exact symmetric_reject s u f h
  | unfriend u f => exact symmetric_unfriend s u f h hc

/-- Two friends and a third user with a pending request: symmetry survives an
`unfriend` between the friends. -/
theorem symmetric_preserved_witness :
    Symmetric [sampleUser 1 [2] [], sampleUser 2 [1] [3], sampleUser 3 [] []] ∧
    step [sampleUser 1 [2] [], sampleUser 2 [1] [3], sampleUser 3 [] []]
      (.unfriend (some 1) (some (.text 2 true))) =
      [{ sampleUser 1 [] [] with version := 1 }, { sampleUser 2 [] [3] with version := 1 },
        sampleUser 3 [] []] ∧
    Symmetric (step [sampleUser 1 [2] [], sampleUser 2 [1] [3], sampleUser 3 [] []]
      (.unfriend (some 1) (some (.text 2 true)))) :=
  ⟨by decide, by decide,
    symmetric_preserved [sampleUser 1 [2] [], sampleUser 2 [1] [3], sampleUser 3 [] []]
      (.unfriend (some 1) (some (.text 2 true))) (by decide) (by decide)⟩

/-! ## Sending the same request twice -/

/-- Claim C4: when `sendFriendRequest(a, b)` succeeds, the same call made
right after it answers 400 `Friend request already sent` and leaves the store as
the first call left it. -/
theorem send_twice (s : Store) (userId : Option Id) (friendId : Option FriendId)
    (h : (sendFriendRequest s userId friendId).2.status = 200) :
    sendFriendRequest (sendFriendRequest s userId friendId).1 userId friendId =
      ((sendFriendRequest s userId friendId).1, ⟨400, "Friend request already sent"⟩) := by
  cases userId with
  | none => simp [sendFriendRequest] at h
  | some a =>
    cases friendId with
    | none => simp [sendFriendRequest] at h
    | some f =>
      cases hu : findById s (some a) with
      | none => simp [sendFriendRequest, hu] at h
      | some ua =>
        cases f with
        | malformed => simp [sendFriendRequest, hu] at h
        | text b c =>
          cases hf : findById s (some b) with
          | none => simp [sendFriendRequest, hu, hf] at h
          | some ub =>
            by_cases hreq : a ∈ ub.friendRequests
            · simp [sendFriendRequest, hu, hf, load, Doc.friendRequestsValue, Change.apply,
                hreq] at h
            · have hidb := findById_id_eq hf
              have hb1 : findById (put s
                  { ub with friendRequests := ub.friendRequests ++ [a],
                            version := ub.version + 1 }) (some b) =
                  some { ub with friendRequests := ub.friendRequests ++ [a],
                                 version := ub.version + 1 } := by
                rw [findById_put]; simp [hidb, hf]
              have ha1 : ∃ v, findById (put s
                  { ub with friendRequests := ub.friendRequests ++ [a],
                            version := ub.version + 1 }) (some a) = some v := by
                rw [findById_put]
                by_cases hab : a = b
                · exact ⟨{ ub with friendRequests := ub.friendRequests ++ [a],
                                   version := ub.version + 1 }, by simp [hidb, hab, hf]⟩
                · exact ⟨ua, by simp [hidb, hab, hu]⟩
              obtain ⟨v, hv⟩ := ha1
              rw [sendFriendRequest_eq hu hf hreq]
              simp [sendFriendRequest, hv, hb1, load, Doc.friendRequestsValue, Change.apply]

/-- User 1 sends a request to user 2 twice. -/
theorem send_twice_witness :
    (sendFriendRequest [sampleUser 1 [] [], sampleUser 2 [] []]
      (some 1) (some (.text 2 true))).1 =
      [sampleUser 1 [] [], { sampleUser 2 [] [1] with version := 1 }] ∧
    sendFriendRequest (sendFriendRequest [sampleUser 1 [] [], sampleUser 2 [] []]
        (some 1) (some (.text 2 true))).1 (some 1) (some (.text 2 true)) =
      ((sendFriendRequest [sampleUser 1 [] [], sampleUser 2 [] []]
          (some 1) (some (.text 2 true))).1,
        ⟨400, "Friend request already sent"⟩) :=
  ⟨by decide,
    send_twice [sampleUser 1 [] [], sampleUser 2 [] []] (some 1) (some (.text 2 true))
      (by decide)⟩

/-! ## Accepting a request that is not pending -/

/-- Claim C9, as stated, fails: user 2 exists, identifier 7 is not in its
`friendRequests` and refers to no user; `acceptFriendRequest(2, 7)` answers 404
`User not found`, not 400. -/
theorem accept_without_request_counterexample :
    findById [sampleUser 2 [] []] (some 2) = some (sampleUser 2 [] []) ∧
    7 ∉ (sampleUser 2 [] []).friendRequests ∧
    acceptFriendRequest [sampleUser 2 [] []] (some 2) (some (.text 7 true)) =
      ([sampleUser 2 [] []], ⟨404, "User not found"⟩) ∧
    (acceptFriendRequest [sampleUser 2 [] []] (some 2) (some (.text 7 true))).2 ≠
      ⟨400, "No friend request from this user"⟩ := by
  decide

/-- Claim C9, amended: for a stored user `b` and a `requesterId` that refers
to a stored user and is not in `b.friendRequests`, `acceptFriendRequest(b,
requesterId)` answers 400 `No friend request from this user` and leaves the
store as it was, in whatever spelling the identifier is sent. -/
theorem accept_without_request (s : Store) (b r : Id) (c : Bool) (ub ur : User)
    (hb : findById s (some b) = some ub) (hr : findById s (some r) = some ur)
    (hreq : r ∉ ub.friendRequests) :
    acceptFriendRequest s (some b) (some (.text r c)) =
      (s, ⟨400, "No friend request from this user"⟩) := by
  cases c with
  | false => simp [acceptFriendRequest, hb, hr, includes_other]
  | true =>
    simp [acceptFriendRequest, hb, hr, includes_canonical, load, Doc.friendRequestsValue,
      Change.apply, hreq]

/-- User 2 accepts a request user 1 never sent. -/
theorem accept_without_request_witness :
    acceptFriendRequest [sampleUser 1 [] [], sampleUser 2 [] [3]] (some 2)
        (some (.text 1 true)) =
      ([sampleUser 1 [] [], sampleUser 2 [] [3]], ⟨400, "No friend request from this user"⟩) :=
  accept_without_request [sampleUser 1 [] [], sampleUser 2 [] [3]] 2 1 true
    (sampleUser 2 [] [3]) (sampleUser 1 [] []) (by decide) (by decide) (by decide)

/-! ## Unfriending -/

theorem unfriend_noop {s : Store} {a b : Id} {ua ub : User}
    (ha : findById s (some a) = some ua) (hb : findById s (some b) = some ub)
    (hba : b ∉ ua.friends) (hab : a ∉ ub.friends) :
    unfriend s (some a) (some (.text b true)) = (s, ⟨200, "Friend removed successfully"⟩) := by
  rw [unfriend_eq ha hb]
  simp only [filter_differs_canonical, filter_ne_eq_self]
  simp [hba, hab]

/-- Claim C5, as stated, fails in two ways.  A user who is in its own friends
list (user 1 after sending itself a request and accepting it) and unfriends
itself gets the answer 500: the record is loaded twice, both copies are
assigned a new friends array, and the second save is refused because the first
one moved the revision.  And when users 1 and 2 are friends and user 1 sends
the identifier of user 2 in another spelling than the canonical one, the answer
is 200 and user 2 is still in `1.friends`. -/
theorem unfriend_counterexample :
    run [sampleUser 1 [] []]
        [.send (some 1) (some (.text 1 true)), .accept (some 1) (some (.text 1 true))] =
      [{ sampleUser 1 [1, 1] [] with version := 3 }] ∧
    unfriend [{ sampleUser 1 [1, 1] [] with version := 3 }] (some 1) (some (.text 1 true)) =
      ([{ sampleUser 1 [] [] with version := 4 }], ⟨500, "Error removing friend"⟩) ∧
    unfriend [sampleUser 1 [2] [], sampleUser 2 [1] []] (some 1) (some (.text 2 false)) =
      ([sampleUser 1 [2] [], { sampleUser 2 [] [] with version := 1 }],
        ⟨200, "Friend removed successfully"⟩) := by
  decide

/-- Claim C5, amended: for stored users `a` and `b` that are distinct, or equal
with `a` not in its own friends list, `unfriend(a, b)` with the identifier of
`b` in its canonical spelling succeeds and leaves `a` out of `b.friends` and
`b` out of `a.friends`, whether or not they were friends; a second
`unfriend(a, b)` succeeds again and leaves the store equal to the store after
the first call. -/
theorem unfriend_idempotent (s : Store) (a b : Id) (ua ub : User)
    (ha : findById s (some a) = some ua) (hb : findById s (some b) = some ub)
    (hself : a = b → a ∉ ua.friends) :
    (unfriend s (some a) (some (.text b true))).2 = ⟨200, "Friend removed successfully"⟩ ∧
    (∃ ua1 ub1, findById (unfriend s (some a) (some (.text b true))).1 (some a) = some ua1 ∧
      findById (unfriend s (some a) (some (.text b true))).1 (some b) = some ub1 ∧
      b ∉ ua1.friends ∧ a ∉ ub1.friends) ∧
    unfriend (unfriend s (some a) (some (.text b true))).1 (some a) (some (.text b true)) =
      ((unfriend s (some a) (some (.text b true))).1,
        ⟨200, "Friend removed successfully"⟩) := by
  have hida := findById_id_eq ha
  have hidb := findById_id_eq hb
  have key : (unfriend s (some a) (some (.text b true))).2 =
        ⟨200, "Friend removed successfully"⟩ ∧
      ∃ ua1 ub1, findById (unfriend s (some a) (some (.text b true))).1 (some a) = some ua1 ∧
        findById (unfriend s (some a) (some (.text b true))).1 (some b) = some ub1 ∧
        b ∉ ua1.friends ∧ a ∉ ub1.friends := by
    rw [unfriend_eq ha hb]
    simp only [filter_differs_canonical, filter_ne_eq_self]
    by_cases hab : a = b
    · subst hab
      have hu : ua = ub := by rw [ha] at hb; exact Option.some.inj hb
      subst hu
      have hn := hself rfl
      simp only [hn, not_false_eq_true, if_true]
      exact ⟨trivial, ua, ua, ha, ha, hn, hn⟩
    · have hne : ¬ ub.id = ua.id := by rw [hida, hidb]; exact fun e => hab e.symm
      have hne2 : ¬ ua.id = ub.id := fun e => hne e.symm
      have hba' : ¬ b = a := fun e => hab e.symm
      by_cases h1 : b ∈ ua.friends
      · by_cases h2 : a ∈ ub.friends
        · simp only [h1, h2, not_true_eq_false, if_false, if_neg hab]
          refine ⟨trivial, ({ ua with
              friends := ua.friends.filter (fun id => id != b)
              version := ua.version + 1 } : User),
            ({ ub with
              friends := ub.friends.filter (fun id => id != a)
              version := ub.version + 1 } : User), ?_, ?_,
            not_mem_filter_ne _ _, not_mem_filter_ne _ _⟩
          · rw [findById_put, findById_put]
            simp [hida, hidb, hab, ha]
          · rw [findById_put, findById_put]
            simp [hida, hidb, hba', hb]
        · simp only [h1, h2, not_true_eq_false, not_false_eq_true, if_false, if_true]
          refine ⟨trivial, ({ ua with
              friends := ua.friends.filter (fun id => id != b)
              version := ua.version + 1 } : User), ub, ?_, ?_,
            not_mem_filter_ne _ _, h2⟩
          · rw [findById_put]; simp [hida, ha]
          · rw [findById_put]; simp [hida, hba', hb]
      · by_cases h2 : a ∈ ub.friends
        · simp only [h1, h2, not_true_eq_false, not_false_eq_true, if_false, if_true]
          refine ⟨trivial, ua, ({ ub with
              friends := ub.friends.filter (fun id => id != a)
              version := ub.version + 1 } : User), ?_, ?_, h1,
            not_mem_filter_ne _ _⟩
          · rw [findById_put]; simp [hidb, hab, ha]
          · rw [findById_put]; simp [hidb, hb]
        · simp only [h1, h2, not_false_eq_true, if_true]
          exact ⟨trivial, ua, ub, ha, hb, h1, h2⟩
  obtain ⟨hst, ua1, ub1, ha1, hb1, hn1, hn2⟩ := key
  exact ⟨hst, ⟨ua1, ub1, ha1, hb1, hn1, hn2⟩, unfriend_noop ha1 hb1 hn1 hn2⟩

/-- Two friends unfriend each other twice. -/
theorem unfriend_idempotent_witness :
    (unfriend [sampleUser 1 [2, 3] [], sampleUser 2 [1] [], sampleUser 3 [1] []]
      (some 1) (some (.text 2 true))).1 =
      [{ sampleUser 1 [3] [] with version := 1 }, { sampleUser 2 [] [] with version := 1 },
        sampleUser 3 [1] []] ∧
    unfriend (unfriend [sampleUser 1 [2, 3] [], sampleUser 2 [1] [], sampleUser 3 [1] []]
        (some 1) (some (.text 2 true))).1 (some 1) (some (.text 2 true)) =
      ((unfriend [sampleUser 1 [2, 3] [], sampleUser 2 [1] [], sampleUser 3 [1] []]
        (some 1) (some (.text 2 true))).1, ⟨200, "Friend removed successfully"⟩) :=
  ⟨by decide,
    (unfriend_idempotent [sampleUser 1 [2, 3] [], sampleUser 2 [1] [], sampleUser 3 [1] []] 1 2
      (sampleUser 1 [2, 3] []) (sampleUser 2 [1] []) (by decide) (by decide)
      (by decide)).2.2⟩

/-! ## Rejecting a request -/

/-- Claim C6, as stated, fails when the two users are the same: user 1 sends a
request to itself, which the handler accepts, and is then in its own
`friendRequests`; `rejectFriendRequest(1, 1)` succeeds and changes the record of
user 1, the requester. -/
theorem reject_counterexample :
    sendFriendRequest [sampleUser 1 [] []] (some 1) (some (.text 1 true)) =
      ([{ sampleUser 1 [] [1] with version := 1 }],
        ⟨200, "Friend request sent successfully"⟩) ∧
    findById [{ sampleUser 1 [] [1] with version := 1 }] (some 1) =
      some { sampleUser 1 [] [1] with version := 1 } ∧
    1 ∈ ({ sampleUser 1 [] [1] with version := 1 } : User).friendRequests ∧
    rejectFriendRequest [{ sampleUser 1 [] [1] with version := 1 }] (some 1)
        (some (.text 1 true)) =
      ([{ sampleUser 1 [] [] with version := 2 }], ⟨200, "Friend request rejected"⟩) ∧
    findById (rejectFriendRequest [{ sampleUser 1 [] [1] with version := 1 }] (some 1)
        (some (.text 1 true))).1 (some 1) ≠
      findById [{ sampleUser 1 [] [1] with version := 1 }] (some 1) := by
  decide

/-- Claim C6, amended: for stored users `a` and `b` with `a` in
`b.friendRequests`, `rejectFriendRequest(b, a)` succeeds, afterwards `a` is not
in `b.friendRequests`, the friends lists of `a` and of `b` are unchanged, every
record other than that of `b` is unchanged, and so the record of `a` is
unchanged altogether when `a` and `b` are distinct. -/
theorem reject_frame (s : Store) (a b : Id) (ua ub : User)
    (ha : findById s (some a) = some ua) (hb : findById s (some b) = some ub)
    (hreq : a ∈ ub.friendRequests) :
    (rejectFriendRequest s (some b) (some (.text a true))).2 =
      ⟨200, "Friend request rejected"⟩ ∧
    (∃ ua1 ub1,
      findById (rejectFriendRequest s (some b) (some (.text a true))).1 (some a) = some ua1 ∧
      findById (rejectFriendRequest s (some b) (some (.text a true))).1 (some b) = some ub1 ∧
      a ∉ ub1.friendRequests ∧ ua1.friends = ua.friends ∧ ub1.friends = ub.friends) ∧
    (∀ i, i ≠ b →
      findById (rejectFriendRequest s (some b) (some (.text a true))).1 (some i) =
        findById s (some i)) ∧
    (a ≠ b →
      findById (rejectFriendRequest s (some b) (some (.text a true))).1 (some a) = some ua) := by
  have hidb := findById_id_eq hb
  have hb1 : findById (put s
      { ub with
        friendRequests := ub.friendRequests.filter (fun id => id != a)
        version := ub.version + 1 }) (some b) =
      some { ub with
        friendRequests := ub.friendRequests.filter (fun id => id != a)
        version := ub.version + 1 } := by
    rw [findById_put]; simp [hidb, hb]
  have hframe : ∀ i, i ≠ b → findById (put s
      { ub with
        friendRequests := ub.friendRequests.filter (fun id => id != a)
        version := ub.version + 1 }) (some i) = findById s (some i) := by
    intro i hi
    rw [findById_put]; simp [hidb, hi]
  rw [rejectFriendRequest_eq hb hreq]
  refine ⟨rfl, ?_, hframe, fun hab => by rw [hframe a hab]; exact ha⟩
  by_cases hab : a = b
  · subst hab
    have hu : ua = ub := by rw [ha] at hb; exact Option.some.inj hb
    subst hu
    exact ⟨_, _, hb1, hb1, not_mem_filter_ne _ _, rfl, rfl⟩
  · exact ⟨ua, _, by rw [hframe a hab]; exact ha, hb1, not_mem_filter_ne _ _, rfl, rfl⟩

/-- User 2 rejects the pending request of user 1: the record of user 1 is as
before. -/
theorem reject_frame_witness :
    (rejectFriendRequest [sampleUser 1 [3] [], sampleUser 2 [] [1, 3], sampleUser 3 [1] []]
      (some 2) (some (.text 1 true))).1 =
      [sampleUser 1 [3] [], { sampleUser 2 [] [3] with version := 1 }, sampleUser 3 [1] []] ∧
    findById (rejectFriendRequest
        [sampleUser 1 [3] [], sampleUser 2 [] [1, 3], sampleUser 3 [1] []]
        (some 2) (some (.text 1 true))).1 (some 1) = some (sampleUser 1 [3] []) :=
  ⟨by decide,
    (reject_frame [sampleUser 1 [3] [], sampleUser 2 [] [1, 3], sampleUser 3 [1] []] 1 2
      (sampleUser 1 [3] []) (sampleUser 2 [] [1, 3]) (by decide) (by decide)
      (by decide)).2.2.2 (by decide)⟩

/-! ## Recommendations -/

theorem mem_friendIds {s : Store} {u : User} {i : Id} :
    i ∈ (populateFriends s u).map (fun friend => friend.id) ↔
      i ∈ u.friends ∧ ∃ v, findById s (some i) = some v := by
  simp only [populateFriends, List.mem_map, List.mem_filterMap]
  constructor
  · rintro ⟨v, ⟨j, hj, hv⟩, rfl⟩
    have := findById_id hv
    simp only [Option.some.injEq] at this
    subst this
    exact ⟨hj, v, hv⟩
  · rintro ⟨hi, v, hv⟩
    have := findById_id hv
    simp only [Option.some.injEq] at this
    exact ⟨v, ⟨i, hi, hv⟩, this.symm⟩

theorem mem_aggregate {s : Store} {friendIds : List Id} {uid : Id} {r : Recommendation}
    (h : r ∈ aggregate s friendIds uid) :
    ∃ d ∈ s, d.id ∉ friendIds ∧ d.id ≠ uid ∧
      r = ⟨d.id, d.username, mutualFriendsCount s friendIds d⟩ := by
  simp only [aggregate] at h
  have h1 := (List.mem_insertionSort byCountDesc).mp (List.mem_of_mem_take h)
  obtain ⟨d, hd, rfl⟩ := List.mem_map.mp h1
  simp only [List.mem_filter, List.mem_append, List.mem_singleton, not_or,
    decide_eq_true_eq] at hd
  exact ⟨d, hd.1, hd.2.1, hd.2.2, rfl⟩

theorem aggregate_sorted (s : Store) (friendIds : List Id) (uid : Id) :
    (aggregate s friendIds uid).Pairwise
      (fun a b => b.mutualFriendsCount ≤ a.mutualFriendsCount) := by
  simp only [aggregate]
  exact (List.sorted_insertionSort byCountDesc _).sublist (List.take_sublist _ _)

theorem aggregate_length (s : Store) (friendIds : List Id) (uid : Id) :
    (aggregate s friendIds uid).length ≤ 5 := by
  simp only [aggregate]
  exact List.length_take_le _ _

/-- Claim C7: for a stored user `u`, `getRecommendations(u)` answers with a
list that has at most 5 entries, is ordered by non-increasing
`mutualFriendsCount`, and contains neither `u` nor any user whose identifier is
in `u.friends`. -/
theorem recommendations_sound (s : Store) (uid : Id) (u : User)
    (hu : findById s (some uid) = some u) :
    ∃ recs, getRecommendations s (some uid) = .ok recs ∧
      recs.length ≤ 5 ∧
      recs.Pairwise (fun a b => b.mutualFriendsCount ≤ a.mutualFriendsCount) ∧
      ∀ r ∈ recs, r.id ≠ uid ∧ r.id ∉ u.friends := by
  have hid : u.id = uid := by have := findById_id hu; simpa using this.symm
  refine ⟨aggregate s ((populateFriends s u).map (fun friend => friend.id)) u.id,
    by simp [getRecommendations, hu], aggregate_length _ _ _, aggregate_sorted _ _ _, ?_⟩
  intro r hr
  obtain ⟨d, hd, hnf, hne, rfl⟩ := mem_aggregate hr
  refine ⟨by simpa [hid] using hne, ?_⟩
  intro hmem
  exact hnf (mem_friendIds.mpr ⟨hmem, findById_of_mem hd⟩)

/-- Seven users around user 1, whose friends are 2 and 3: the answer lists the
five best of the others. -/
theorem recommendations_sound_witness :
    getRecommendations
      [sampleUser 1 [2, 3] [], sampleUser 2 [1, 4, 5] [], sampleUser 3 [1, 4] [],
        sampleUser 4 [2, 3] [], sampleUser 5 [2] [], sampleUser 6 [] [],
        sampleUser 7 [] [], sampleUser 8 [] [], sampleUser 9 [] []] (some 1)
      = .ok [⟨4, "user", 2⟩, ⟨5, "user", 1⟩, ⟨6, "user", 0⟩, ⟨7, "user", 0⟩,
          ⟨8, "user", 0⟩] ∧
    ∃ recs, getRecommendations
      [sampleUser 1 [2, 3] [], sampleUser 2 [1, 4, 5] [], sampleUser 3 [1, 4] [],
        sampleUser 4 [2, 3] [], sampleUser 5 [2] [], sampleUser 6 [] [],
        sampleUser 7 [] [], sampleUser 8 [] [], sampleUser 9 [] []] (some 1) = .ok recs ∧
      recs.length ≤ 5 ∧
      recs.Pairwise (fun a b => b.mutualFriendsCount ≤ a.mutualFriendsCount) ∧
      ∀ r ∈ recs, r.id ≠ 1 ∧ r.id ∉ (sampleUser 1 [2, 3] []).friends :=
  ⟨by rfl,
    recommendations_sound
      [sampleUser 1 [2, 3] [], sampleUser 2 [1, 4, 5] [], sampleUser 3 [1, 4] [],
        sampleUser 4 [2, 3] [], sampleUser 5 [2] [], sampleUser 6 [] [],
        sampleUser 7 [] [], sampleUser 8 [] [], sampleUser 9 [] []] 1
      (sampleUser 1 [2, 3] []) (by decide)⟩

theorem mutualFriendsCount_eq {s : Store} {u c : User} (hres : FriendsResolve s)
    (hu : u ∈ s) (hc : c ∈ s) :
    mutualFriendsCount s ((populateFriends s u).map (fun friend => friend.id)) c =
      distinctCommonFriends c u := by
  simp only [mutualFriendsCount, distinctCommonFriends]
  rw [← List.card_toFinset]
  congr 1
  ext i
  simp only [List.mem_toFinset, List.mem_filter, decide_eq_true_eq, Finset.mem_inter,
    mem_friendIds]
  simp only [List.mem_map, List.mem_filter, decide_eq_true_eq]
  constructor
  · rintro ⟨⟨f, ⟨_, hf⟩, rfl⟩, hi, _⟩
    exact ⟨hf, hi⟩
  · rintro ⟨hic, hiu⟩
    have h1 := hres c hc i hic
    have h2 := hres u hu i hiu
    rw [Option.isSome_iff_exists] at h1 h2
    obtain ⟨v, hv⟩ := h1
    have hvid := findById_id hv
    simp only [Option.some.injEq] at hvid
    exact ⟨⟨v, ⟨findById_mem hv, by rw [← hvid]; exact hic⟩, hvid.symm⟩, hiu, h2⟩

theorem pairwise_take_drop {α : Type} {R : α → α → Prop} {l : List α} (h : l.Pairwise R)
    (n : Nat) : ∀ a ∈ l.take n, ∀ b ∈ l.drop n, R a b := by
  rw [← List.take_append_drop n l] at h
  exact (List.pairwise_append.mp h).2.2

theorem aggregate_top {s : Store} {friendIds : List Id} {uid : Id} {d : User}
    (hd : d ∈ s) (hnf : d.id ∉ friendIds) (hne : d.id ≠ uid)
    (hout : ∀ r ∈ aggregate s friendIds uid, r.id ≠ d.id) :
    ∀ r ∈ aggregate s friendIds uid,
      mutualFriendsCount s friendIds d ≤ r.mutualFriendsCount := by
  intro r hr
  simp only [aggregate] at hr hout
  have hmem : (⟨d.id, d.username, mutualFriendsCount s friendIds d⟩ : Recommendation) ∈
      ((s.filter (fun d => decide (d.id ∉ friendIds ++ [uid]))).map
        (fun d => (⟨d.id, d.username, mutualFriendsCount s friendIds d⟩ : Recommendation))
        ).insertionSort byCountDesc := by
    rw [List.mem_insertionSort]
    refine List.mem_map.mpr ⟨d, ?_, rfl⟩
    simp [List.mem_filter, hd, hnf, hne]
  rw [← List.take_append_drop 5 (List.insertionSort byCountDesc _), List.mem_append] at hmem
  rcases hmem with h1 | h2
  · exact absurd rfl (hout _ h1)
  · exact pairwise_take_drop (List.sorted_insertionSort byCountDesc _) 5 r hr _ h2

theorem projected_eq_specCandidates {s : Store} {u : User} (hres : FriendsResolve s)
    (hu : u ∈ s) :
    (s.filter (fun d => decide
        (d.id ∉ (populateFriends s u).map (fun friend => friend.id) ++ [u.id]))).map
      (fun d => (⟨d.id, d.username,
        mutualFriendsCount s ((populateFriends s u).map (fun friend => friend.id)) d⟩ :
          Recommendation)) = specCandidates s u := by
  have hfilter : s.filter (fun d => decide
        (d.id ∉ (populateFriends s u).map (fun friend => friend.id) ++ [u.id])) =
      s.filter (fun c => decide (c.id ≠ u.id ∧ c.id ∉ u.friends)) := by
    apply List.filter_congr
    intro d hd
    have hex := findById_of_mem hd
    simp only [List.mem_append, List.mem_singleton, mem_friendIds, not_or, decide_eq_decide]
    constructor
    · rintro ⟨h1, h2⟩
      exact ⟨h2, fun hm => h1 ⟨hm, hex⟩⟩
    · rintro ⟨h1, h2⟩
      exact ⟨fun hm => h2 hm.1, h1⟩
  rw [hfilter, specCandidates]
  apply List.map_congr_left
  intro d hd
  rw [mutualFriendsCount_eq hres hu (List.mem_of_mem_filter hd)]

/-- Claim C8: in a store where every identifier of a friends list refers to a
stored user, `getRecommendations(u)` answers with the first five entries of a
ranking of all stored users other than `u` and its friends, each with the
number of distinct identifiers occurring both in its friends list and in
`u.friends`, ordered by non-increasing count.  So every entry carries that
number as `mutualFriendsCount`, and no stored user left out of the answer who is
neither `u` nor a friend of `u` has a larger such number than an entry of the
answer. -/
theorem recommendations_counts (s : Store) (uid : Id) (u : User)
    (hres : FriendsResolve s) (hu : findById s (some uid) = some u) :
    ∃ recs, getRecommendations s (some uid) = .ok recs ∧
      (∀ r ∈ recs, ∃ c ∈ s,
        r = ⟨c.id, c.username, distinctCommonFriends c u⟩) ∧
      (∀ c ∈ s, c.id ≠ uid → c.id ∉ u.friends → (∀ r ∈ recs, r.id ≠ c.id) →
        ∀ r ∈ recs, distinctCommonFriends c u ≤ r.mutualFriendsCount) ∧
      (∃ ranked : List Recommendation, ranked.Perm (specCandidates s u) ∧
        ranked.Pairwise (fun a b => b.mutualFriendsCount ≤ a.mutualFriendsCount) ∧
        recs = ranked.take 5) ∧
      recs.length = min 5 (specCandidates s u).length := by
  have hid : u.id = uid := findById_id_eq hu
  have hus := findById_mem hu
  have hproj := projected_eq_specCandidates hres hus
  refine ⟨aggregate s ((populateFriends s u).map (fun friend => friend.id)) u.id,
    by simp [getRecommendations, hu], ?_, ?_, ?_, ?_⟩
  · intro r hr
    obtain ⟨d, hd, _, _, rfl⟩ := mem_aggregate hr
    exact ⟨d, hd, by rw [mutualFriendsCount_eq hres hus hd]⟩
  · intro c hc hne hnf hout r hr
    rw [← mutualFriendsCount_eq hres hus hc]
    refine aggregate_top hc ?_ (by simpa [hid] using hne) hout r hr
    intro hmem
    exact hnf (mem_friendIds.mp hmem).1
  · refine ⟨(specCandidates s u).insertionSort byCountDesc,
      List.perm_insertionSort byCountDesc _,
      List.sorted_insertionSort byCountDesc _, ?_⟩
    simp only [aggregate, hproj]
  · simp only [aggregate, hproj, List.length_take]
    rw [(List.perm_insertionSort byCountDesc (specCandidates s u)).length_eq]

/-- The store of the previous example resolves every friend identifier.  Of the
seven candidates the answer lists user 4 with two common friends, user 5 with
one, and three of the users without any; user 9 is left out. -/
theorem recommendations_counts_witness :
    FriendsResolve
      [sampleUser 1 [2, 3] [], sampleUser 2 [1, 4, 5] [], sampleUser 3 [1, 4] [],
        sampleUser 4 [2, 3] [], sampleUser 5 [2] [], sampleUser 6 [] [],
        sampleUser 7 [] [], sampleUser 8 [] [], sampleUser 9 [] []] ∧
    getRecommendations
      [sampleUser 1 [2, 3] [], sampleUser 2 [1, 4, 5] [], sampleUser 3 [1, 4] [],
        sampleUser 4 [2, 3] [], sampleUser 5 [2] [], sampleUser 6 [] [],
        sampleUser 7 [] [], sampleUser 8 [] [], sampleUser 9 [] []] (some 1)
      = .ok [⟨4, "user", 2⟩, ⟨5, "user", 1⟩, ⟨6, "user", 0⟩, ⟨7, "user", 0⟩,
          ⟨8, "user", 0⟩] ∧
    ∃ recs, getRecommendations
      [sampleUser 1 [2, 3] [], sampleUser 2 [1, 4, 5] [], sampleUser 3 [1, 4] [],
        sampleUser 4 [2, 3] [], sampleUser 5 [2] [], sampleUser 6 [] [],
        sampleUser 7 [] [], sampleUser 8 [] [], sampleUser 9 [] []] (some 1) = .ok recs ∧
      (∀ r ∈ recs, ∃ c ∈
        [sampleUser 1 [2, 3] [], sampleUser 2 [1, 4, 5] [], sampleUser 3 [1, 4] [],
          sampleUser 4 [2, 3] [], sampleUser 5 [2] [], sampleUser 6 [] [],
          sampleUser 7 [] [], sampleUser 8 [] [], sampleUser 9 [] []],
        r = ⟨c.id, c.username, distinctCommonFriends c (sampleUser 1 [2, 3] [])⟩) ∧
      (∀ c ∈
        [sampleUser 1 [2, 3] [], sampleUser 2 [1, 4, 5] [], sampleUser 3 [1, 4] [],
          sampleUser 4 [2, 3] [], sampleUser 5 [2] [], sampleUser 6 [] [],
          sampleUser 7 [] [], sampleUser 8 [] [], sampleUser 9 [] []],
        c.id ≠ 1 → c.id ∉ (sampleUser 1 [2, 3] []).friends → (∀ r ∈ recs, r.id ≠ c.id) →
        ∀ r ∈ recs, distinctCommonFriends c (sampleUser 1 [2, 3] []) ≤ r.mutualFriendsCount) ∧
      (∃ ranked : List Recommendation, ranked.Perm (specCandidates
          [sampleUser 1 [2, 3] [], sampleUser 2 [1, 4, 5] [], sampleUser 3 [1, 4] [],
            sampleUser 4 [2, 3] [], sampleUser 5 [2] [], sampleUser 6 [] [],
            sampleUser 7 [] [], sampleUser 8 [] [], sampleUser 9 [] []]
          (sampleUser 1 [2, 3] [])) ∧
        ranked.Pairwise (fun a b => b.mutualFriendsCount ≤ a.mutualFriendsCount) ∧
        recs = ranked.take 5) ∧
      recs.length = min 5 (specCandidates
          [sampleUser 1 [2, 3] [], sampleUser 2 [1, 4, 5] [], sampleUser 3 [1, 4] [],
            sampleUser 4 [2, 3] [], sampleUser 5 [2] [], sampleUser 6 [] [],
            sampleUser 7 [] [], sampleUser 8 [] [], sampleUser 9 [] []]
          (sampleUser 1 [2, 3] [])).length :=
  ⟨by decide, by rfl,
    recommendations_counts
      [sampleUser 1 [2, 3] [], sampleUser 2 [1, 4, 5] [], sampleUser 3 [1, 4] [],
        sampleUser 4 [2, 3] [], sampleUser 5 [2] [], sampleUser 6 [] [],
        sampleUser 7 [] [], sampleUser 8 [] [], sampleUser 9 [] []] 1
      (sampleUser 1 [2, 3] []) (by decide) (by decide)⟩

/-! ## The auth middleware -/

/-- On a header `Bearer <token>` whose token is non-empty and free of spaces the
middleware verifies exactly that token. -/
theorem bearerToken_bearer (token : String) (hne : token.toList ≠ [])
    (hsp : ' ' ∉ token.toList) :
    bearerToken (some ("Bearer " ++ token)) = some token := by
  have hne2 : token.data ≠ [] := hne
  have h1 : ("Bearer " ++ token).toList = "Bearer".toList ++ ' ' :: token.toList := by
    simp [String.toList, String.data_append]
  have h2 : ("Bearer".toList ++ ' ' :: token.toList).splitOn ' ' =
      ["Bearer".toList, token.toList] := by
    unfold List.splitOn
    have hfirst := List.splitOnP_first (fun c => c == ' ') "Bearer".toList
      (by decide) ' ' (by decide) token.toList
    rw [hfirst, List.splitOnP_eq_single]
    intro x hx hx2
    simp at hx2
    exact hsp (hx2 ▸ hx)
  simp only [bearerToken, h1, h2]
  simp [hne2]

/-- Claim C10, as stated, fails: the header `Basic good` is not of the form
`Bearer <token>`, so the request carries no valid bearer credential, yet the
middleware verifies the second word of the header and calls `next()`. -/
theorem auth_counterexample :
    ¬ validBearerCredential sampleVerify "key" (some "Basic good") ∧
    auth sampleVerify "key" [sampleUser 1 [] []] (some "Basic good") =
      ([sampleUser 1 [] []], .next { sampleUser 1 [] [] with password := none }) := by
  refine ⟨?_, by decide⟩
  rintro ⟨token, h, _⟩
  have h2 := congrArg (fun o => o.map (fun x => x.toList.take 2)) h
  simp at h2

/-- Claim C10, amended: when the authorization header is absent, or has no
non-empty second part when split at single spaces, or that second part fails
verification against the secret, the middleware answers 401, does not call
`next()`, and leaves the store unchanged. -/
theorem auth_rejects (verify : String → String → Option Decoded) (secret : String)
    (s : Store) (authorization : Option String)
    (h : ∀ token, bearerToken authorization = some token → verify token secret = none) :
    ∃ message, auth verify secret s authorization = (s, .respond ⟨401, message⟩) := by
  cases ht : bearerToken authorization with
  | none => exact ⟨"No token, authorization denied", by simp [auth, ht]⟩
  | some token =>
    exact ⟨"Authentication failed", by simp [auth, ht, h token ht]⟩

/-- A header `Bearer bad` whose token the verifier refuses. -/
theorem auth_rejects_witness :
    bearerToken (some "Bearer bad") = some "bad" ∧
    ∃ message, auth sampleVerify "key" [sampleUser 1 [] []] (some "Bearer bad") =
      ([sampleUser 1 [] []], .respond ⟨401, message⟩) :=
  ⟨by decide,
    auth_rejects sampleVerify "key" [sampleUser 1 [] []] (some "Bearer bad") (by
      intro token ht
      have hb : bearerToken (some "Bearer bad") = some "bad" := by decide
      rw [hb] at ht
      cases ht
      decide)⟩

end FriendCircle
